import Mathlib

/-!
Verification of the Inkless-server core against its specification.

Shallow embedding of the server's data model and operations:

* `User` / `Msg` / `DB` mirror the Mongoose `User` and `Message` schemas and the
  two collections of the store (`src/models/index.js`).
* Store primitives: `updateFirst` models `findOneAndUpdate` (updates the first
  matching document), `removeFirst` models `deleteOne`; `List.filter` models
  `find` / `deleteMany`, `List.map` with a guard models `updateMany`.
* Route handlers are translated from `src/routes/api.js` and from the
  mark-read route of the earlier router copy in the repository; the background
  sweep `cleanupInactiveUsers` is translated from the server file that pairs
  purge-after-grace with mark-on-inactivity.

Timestamps are naturals (milliseconds since epoch); identity codes are strings,
as in the source.  Randomness (`Math.random`) is modelled by an explicit
generator function passed to `generateUniqueId`.
-/

/-- Shallow embedding of the Mongoose `User` document: a 6-digit identity code,
creation / last-activity timestamps and the soft-deletion fields. -/
structure User where
  id : String
  createdAt : Nat
  lastActive : Nat
  markedForDeletion : Bool
  markedAt : Option Nat
  deleteReason : Option String
deriving DecidableEq

/-- Shallow embedding of the Mongoose `Message` document.  `mid` is the
store-assigned `_id`. -/
structure Msg where
  mid : Nat
  senderId : String
  recipientId : String
  content : String
  timestamp : Nat
  isRead : Bool
  senderFingerprint : Option String
deriving DecidableEq

/-- The shared store: the `users` and `messages` collections. -/
structure DB where
  users : List User
  msgs : List Msg
deriving DecidableEq

/-- Model of Mongo `findOneAndUpdate`: apply `f` to the first element
satisfying `p`, leave everything else unchanged. -/
def updateFirst (p : α → Bool) (f : α → α) : List α → List α
  | [] => []
  | x :: xs => if p x then f x :: xs else x :: updateFirst p f xs

/-- Model of Mongo `deleteOne`: remove the first element satisfying `p`. -/
def removeFirst (p : α → Bool) : List α → List α
  | [] => []
  | x :: xs => if p x then xs else x :: removeFirst p xs

/-- Error codes surfaced by the routes (the `code` field of `formatResponse`
on the failure paths). -/
inductive ApiError where
  | userNotFound
  | serviceUnavailable
  | invalidRequest
  | invalidId
  | invalidRecipient
  | invalidMessage (reason : String)
  | senderNotFound
  | recipientNotFound
deriving DecidableEq

deriving instance DecidableEq for Except

/-! ### Identity allocation and validation (`src/utils/helpers.js`) -/

/-- Translation of `isValidId`: the regex test `/^\d{6}$/` — exactly six ASCII
digit characters. -/
def isValidId (s : String) : Bool :=
  s.length == 6 && s.toList.all (fun c => c.isDigit)

/-- Translation of `isIdAvailable`: format-invalid ids are reported
unavailable; otherwise available iff no user holds the id. -/
def isIdAvailable (db : DB) (id : String) : Bool :=
  if !isValidId id then false
  else (db.users.find? (fun u => u.id == id)).isNone

/-- Result of `GET /api/check-id/:id`: either the 400 `INVALID_ID_FORMAT`
rejection issued by the `validateUserId` middleware, or the handler's success
payload `{ available, id }`. -/
inductive CheckIdResult where
  | invalidFormat
  | ok (available : Bool) (id : String)
deriving DecidableEq

/-- Translation of the `GET /api/check-id/:id` pipeline: the `validateUserId`
middleware tests `/^\d{6}$/` and rejects with `INVALID_ID_FORMAT` before the
handler calls `isIdAvailable`. -/
def checkIdRoute (db : DB) (id : String) : CheckIdResult :=
  if !isValidId id then .invalidFormat
  else .ok (isIdAvailable db id) id

/-- Translation of the retry loop of `generateUniqueId`: `gen i` is the `i`-th
draw of `Math.floor(100000 + Math.random() * 900000)`; each candidate is
`toString`-ed and checked against the users collection; `none` models the
`Unable to generate unique ID` throw once the attempt budget is spent. -/
def generateUniqueIdAux (gen : Nat → Nat) (db : DB) : Nat → Nat → Option String
  | _, 0 => none
  | i, fuel + 1 =>
    match db.users.find? (fun u => u.id == toString (gen i)) with
    | none => some (toString (gen i))
    | some _ => generateUniqueIdAux gen db (i + 1) fuel

/-- Translation of `generateUniqueId(maxAttempts = 10)`. -/
def generateUniqueId (gen : Nat → Nat) (db : DB) (maxAttempts : Nat := 10) :
    Option String :=
  generateUniqueIdAux gen db 0 maxAttempts

/-- Translation of `GET /api/generate-id`: allocate a unique id, persist the
new user; the allocation-exhausted throw is mapped to the 503
`SERVICE_UNAVAILABLE` response. -/
def generateIdRoute (gen : Nat → Nat) (db : DB) (now : Nat) :
    Except ApiError (String × DB) :=
  match generateUniqueId gen db 10 with
  | none => .error .serviceUnavailable
  | some id =>
    .ok (id, { db with users := db.users ++
        [{ id := id, createdAt := now, lastActive := now,
           markedForDeletion := false, markedAt := none, deleteReason := none }] })

/-! ### Message validation and sending -/

/-- Scanner for the spam regex `/(.)\1{10,}/`: `cnt` is the length of the run
of `cur` ending just before the remaining input; a run of eleven or more
repeats of one character matches. -/
def hasRunAux : List Char → Char → Nat → Bool
  | [], _, cnt => cnt ≥ 11
  | c :: rest, cur, cnt =>
    if c == cur then hasRunAux rest cur (cnt + 1)
    else cnt ≥ 11 || hasRunAux rest c 1

/-- Test of the repeated-character spam pattern `/(.)\1{10,}/`. -/
def hasRepeatedRun (s : String) : Bool :=
  match s.toList with
  | [] => false
  | c :: rest => hasRunAux rest c 1

/-- Test whether the character list starts with `http://` or `https://`
followed by at least one non-whitespace character, as the URL spam regex
`/https?:\/\/[^\s]+/` requires at a match position. -/
def isUrlStart : List Char → Bool
  | 'h' :: 't' :: 't' :: 'p' :: ':' :: '/' :: '/' :: c :: _ =>
    !c.isWhitespace
  | 'h' :: 't' :: 't' :: 'p' :: 's' :: ':' :: '/' :: '/' :: c :: _ =>
    !c.isWhitespace
  | _ => false

/-- Test of the URL spam pattern at any position of the string. -/
def containsUrl : List Char → Bool
  | [] => false
  | c :: rest => isUrlStart (c :: rest) || containsUrl rest

/-- Model of JavaScript `String.prototype.trim`: drop leading and trailing
whitespace.  (Defined structurally over the character list so that concrete
evaluation reduces.) -/
def jsTrim (s : String) : String :=
  (((s.toList.dropWhile Char.isWhitespace).reverse.dropWhile
      Char.isWhitespace).reverse).asString

/-- Translation of `validateMessage`: requires non-empty content, trims it,
rejects the empty / over-1000-character / spam cases, and on success returns
the trimmed content (the value persisted by the send route). -/
def validateMessage (content : String) : Except String String :=
  if content == "" then .error "Message content is required"
  else if jsTrim content == "" then .error "Message cannot be empty"
  else if (jsTrim content).length > 1000 then
    .error "Message too long (max 1000 characters)"
  else if hasRepeatedRun (jsTrim content) ||
      containsUrl (jsTrim content).toList then
    .error "Message appears to be spam"
  else .ok (jsTrim content)

/-- Modelled from the spec: the normalization the specification describes for
persisted content — outer whitespace trimmed and every internal run of
whitespace collapsed to one space.  The flag records whether the previous
kept character position was inside a whitespace run. -/
def collapseWsAux : List Char → Bool → List Char
  | [], _ => []
  | c :: rest, prevSpace =>
    if c.isWhitespace then
      if prevSpace then collapseWsAux rest true
      else ' ' :: collapseWsAux rest true
    else c :: collapseWsAux rest false

/-- Modelled from the spec: trim, then collapse internal whitespace runs. -/
def specNormalize (s : String) : String :=
  (collapseWsAux (jsTrim s).toList false).asString

/-- Translation of `POST /api/messages/send`: field presence, id format,
self-send and content checks, existence of both identities, then persistence
of the message (with the validated content and a fingerprint) and the
`lastActive` touch of the recipient.  `newMid` is the store-assigned `_id`
of the new message. -/
def sendMessage (db : DB) (senderId recipientId content fp : String)
    (newMid now : Nat) : Except ApiError (Nat × DB) :=
  if senderId == "" || recipientId == "" || content == "" then
    .error .invalidRequest
  else if !(isValidId senderId && isValidId recipientId) then .error .invalidId
  else if senderId == recipientId then .error .invalidRecipient
  else
    match validateMessage content with
    | .error e => .error (.invalidMessage e)
    | .ok normalized =>
      match db.users.find? (fun u => u.id == senderId) with
      | none => .error .senderNotFound
      | some _ =>
        match db.users.find? (fun u => u.id == recipientId) with
        | none => .error .recipientNotFound
        | some _ =>
          .ok (newMid,
            { users := updateFirst (fun u => u.id == recipientId)
                (fun u => { u with lastActive := now }) db.users,
              msgs := db.msgs ++
                [{ mid := newMid, senderId := senderId,
                   recipientId := recipientId, content := normalized,
                   timestamp := now, isRead := false,
                   senderFingerprint := some fp }] })

/-! ### Consume-on-read delivery (`GET /api/messages/:recipientId`) -/

/-- The Mongo query built by the receive route: messages addressed to the
recipient, restricted to unread ones when `unread === "true"`. -/
def msgQuery (recipientId : String) (unreadOnly : Bool) (m : Msg) : Bool :=
  m.recipientId == recipientId && (!unreadOnly || !m.isRead)

/-- The ordering of `.sort({ timestamp: -1 })`: `a` comes no later than `b`
in the output when `a`'s timestamp is at least `b`'s. -/
def newerFirst (a b : Msg) : Prop := b.timestamp ≤ a.timestamp

instance : DecidableRel newerFirst :=
  fun a b => Nat.decLe b.timestamp a.timestamp

instance : IsTotal Msg newerFirst :=
  ⟨fun a b => Nat.le_total b.timestamp a.timestamp⟩

instance : IsTrans Msg newerFirst :=
  ⟨fun _ _ _ h1 h2 => Nat.le_trans h2 h1⟩

/-- The route's `.sort({ timestamp: -1 })`: newest first. -/
def sortNewestFirst (l : List Msg) : List Msg :=
  List.insertionSort newerFirst l

/-- The page of messages the receive route selects:
`skip((page-1)*limit).limit(limit)` over the newest-first ordering of the
query's matches. -/
def receivePage (db : DB) (r : String) (page limit : Nat) (uo : Bool) :
    List Msg :=
  ((sortNewestFirst (db.msgs.filter (msgQuery r uo))).drop
    ((page - 1) * limit)).take limit

/-- The `.select("-senderFingerprint")` projection. -/
def stripFingerprint (m : Msg) : Msg := { m with senderFingerprint := none }

/-- State of the store after the receive route ran: the recipient's
`lastActive` is touched and the retrieved page is deleted by `_id`. -/
def receiveDB (db : DB) (r : String) (page limit : Nat) (uo : Bool)
    (now : Nat) : DB :=
  { users := updateFirst (fun u => u.id == r)
      (fun u => { u with lastActive := now }) db.users,
    msgs := db.msgs.filter (fun m =>
      !(((receivePage db r page limit uo).map (fun x => x.mid)).contains
        m.mid)) }

/-- The success payload of the receive route. -/
structure ReceiveResult where
  messages : List Msg
  currentPage : Nat
  totalPages : Nat
  totalMessages : Nat
  hasMore : Bool
  limit : Nat
  unreadCount : Option Nat
  deletedCount : Nat
deriving DecidableEq

/-- The payload built by the receive route: the fingerprint-stripped page,
pagination metadata computed from `remaining = total - page.length`
(`totalPages = Math.ceil(remaining / limit)`), the unread count queried after
the deletion (only when not already filtering to unread), and the number of
messages deleted. -/
def receiveResult (db : DB) (r : String) (page limit : Nat) (uo : Bool)
    (now : Nat) : ReceiveResult :=
  let pageMsgs := receivePage db r page limit uo
  let total := (db.msgs.filter (msgQuery r uo)).length
  let remaining := total - pageMsgs.length
  { messages := pageMsgs.map stripFingerprint,
    currentPage := page,
    totalPages := (remaining + limit - 1) / limit,
    totalMessages := remaining,
    hasMore := decide ((page - 1) * limit + pageMsgs.length < total),
    limit := limit,
    unreadCount :=
      if uo then none
      else some (((receiveDB db r page limit uo now).msgs.filter
        (fun m => m.recipientId == r && !m.isRead)).length),
    deletedCount := pageMsgs.length }

/-- Translation of `GET /api/messages/:recipientId`: 404 when the recipient
does not exist, otherwise the consume-on-read fetch: select a page, touch
`lastActive`, delete the returned page, answer with post-deletion counts. -/
def receive (db : DB) (r : String) (page limit : Nat) (uo : Bool)
    (now : Nat) : Except ApiError (ReceiveResult × DB) :=
  match db.users.find? (fun u => u.id == r) with
  | none => .error .userNotFound
  | some _ =>
    .ok (receiveResult db r page limit uo now, receiveDB db r page limit uo now)

/-! ### Mark-read (`PUT /api/messages/:userId/read`) -/

/-- The `_id` restriction of the mark-read update: only applied when the
caller supplies a non-empty `messageIds` array. -/
def markReadIdFilter (messageIds : Option (List Nat)) (m : Msg) : Bool :=
  match messageIds with
  | some ids => if ids.isEmpty then true else ids.contains m.mid
  | none => true

/-- The full filter of the mark-read `updateMany`: always conjoins
`recipientId = userId` with the optional `_id` restriction. -/
def markReadQuery (userId : String) (messageIds : Option (List Nat))
    (m : Msg) : Bool :=
  m.recipientId == userId && markReadIdFilter messageIds m

/-- Translation of `PUT /api/messages/:userId/read`: 404 when the user does
not exist; otherwise `updateMany` sets `isRead` on every matching message and
reports `modifiedCount` (documents whose `isRead` actually changed). -/
def markMessagesRead (db : DB) (userId : String)
    (messageIds : Option (List Nat)) : Except ApiError (Nat × DB) :=
  match db.users.find? (fun u => u.id == userId) with
  | none => .error .userNotFound
  | some _ =>
    .ok ((db.msgs.filter (fun m =>
            markReadQuery userId messageIds m && !m.isRead)).length,
      { db with msgs := db.msgs.map (fun m =>
          if markReadQuery userId messageIds m then { m with isRead := true }
          else m) })

/-! ### Heartbeat and delete (`PUT /api/users/:userId/heartbeat`,
`DELETE /api/users/:userId`) -/

/-- Translation of the heartbeat route: `findOneAndUpdate({id}, {lastActive},
{new: true})`; 404 when no user matches; otherwise returns the updated user
and the new store. -/
def heartbeat (db : DB) (userId : String) (now : Nat) :
    Except ApiError (User × DB) :=
  match db.users.find? (fun u => u.id == userId) with
  | none => .error .userNotFound
  | some u =>
    .ok ({ u with lastActive := now },
      { db with users := (updateFirst (fun v => v.id == userId)
          (fun v => { v with lastActive := now }) db.users) })

/-- The success payload of the delete route (the route always answers with a
success-shaped response). -/
structure DeleteResult where
  userId : String
  deletedMessages : Nat
  wasDeleted : Bool
  reason : String
deriving DecidableEq

/-- Translation of `DELETE /api/users/:userId`: an absent user is a
successful no-op; `immediate` deletion removes the user's messages (as sender
or recipient) and the user; otherwise the user is soft-deleted by setting the
marking fields. -/
def deleteUser (db : DB) (userId : String) (immediate : Bool)
    (reason : String) (now : Nat) : DeleteResult × DB :=
  match db.users.find? (fun u => u.id == userId) with
  | none =>
    ({ userId := userId, deletedMessages := 0, wasDeleted := false,
       reason := reason }, db)
  | some _ =>
    if immediate then
      let deleted := db.msgs.filter (fun m =>
        m.senderId == userId || m.recipientId == userId)
      ({ userId := userId, deletedMessages := deleted.length,
         wasDeleted := true, reason := reason },
       { users := removeFirst (fun u => u.id == userId) db.users,
         msgs := db.msgs.filter (fun m =>
           !(m.senderId == userId || m.recipientId == userId)) })
    else
      ({ userId := userId, deletedMessages := 0, wasDeleted := false,
         reason := reason },
       { db with users := (updateFirst (fun u => u.id == userId)
           (fun u => { u with markedForDeletion := true,
                              markedAt := some now,
                              deleteReason := some reason }) db.users) })

/-! ### The background sweep (`cleanupInactiveUsers`) -/

/-- The grace window: two minutes in milliseconds. -/
def gracePeriodMs : Nat := 2 * 60 * 1000

/-- The inactivity threshold: fifteen minutes in milliseconds. -/
def inactivityMs : Nat := 15 * 60 * 1000

/-- The sweep's first query: `markedForDeletion: true, markedAt: {$lt:
twoMinutesAgo}` (a missing `markedAt` never satisfies `$lt`). -/
def pastGrace (now : Nat) (u : User) : Bool :=
  u.markedForDeletion &&
    (match u.markedAt with
     | some t => decide (t < now - gracePeriodMs)
     | none => false)

/-- The sweep's second query: inactive for more than fifteen minutes and not
already marked (`markedForDeletion: {$ne: true}`). -/
def isInactive (now : Nat) (u : User) : Bool :=
  decide (u.lastActive < now - inactivityMs) && !u.markedForDeletion

/-- One iteration of the sweep's purge loop: `Message.deleteMany` for the
user's messages (as sender or recipient) followed by `User.deleteOne`. -/
def purgeUser (db : DB) (uid : String) : DB :=
  { users := removeFirst (fun u => u.id == uid) db.users,
    msgs := db.msgs.filter (fun m =>
      !(m.senderId == uid || m.recipientId == uid)) }

/-- Phase one of the sweep: select every marked identity past grace, then
purge each in turn. -/
def purgePhase (db : DB) (now : Nat) : DB :=
  (db.users.filter (pastGrace now)).foldl (fun acc u => purgeUser acc u.id) db

/-- Phase two of the sweep: `updateMany` marks every currently-inactive,
not-yet-marked identity with `markedForDeletion`, `markedAt = now` and
`deleteReason = "inactivity"`. -/
def markPhase (db : DB) (now : Nat) : DB :=
  { db with users := (db.users.map (fun u =>
      if ((db.users.filter (isInactive now)).map
          (fun x => x.id)).contains u.id then
        { u with markedForDeletion := true, markedAt := some now,
                 deleteReason := some "inactivity" }
      else u)) }

/-- Translation of `cleanupInactiveUsers`: purge past-grace identities first,
then mark newly-inactive ones. -/
def cleanupInactiveUsers (db : DB) (now : Nat) : DB :=
  markPhase (purgePhase db now) now


/-! ### Sample data used by the concrete witnesses -/

/-- Sample identity `"111111"`. -/
def sampleUser : User :=
  { id := "111111", createdAt := 0, lastActive := 0,
    markedForDeletion := false, markedAt := none, deleteReason := none }

/-- Sample identity `"222222"`. -/
def sampleUser2 : User := { sampleUser with id := "222222" }

/-- Sample message number `i` from `"222222"` to `"111111"` at time `ts`. -/
def sampleMsg (i ts : Nat) : Msg :=
  { mid := i, senderId := "222222", recipientId := "111111", content := "hi",
    timestamp := ts, isRead := false, senderFingerprint := some "fp" }

/-- Sample store with one identity and two unread messages. -/
def sampleDB : DB :=
  { users := [sampleUser], msgs := [sampleMsg 1 10, sampleMsg 2 20] }

/-- The empty store. -/
def emptyDB : DB := { users := [], msgs := [] }

/-- Message number `i` (timestamp `i`) to `"111111"`, for the wide store. -/
def wideMsg (i : Nat) : Msg :=
  { mid := i, senderId := "222222", recipientId := "111111", content := "x",
    timestamp := i, isRead := false, senderFingerprint := none }

/-- A store holding 51 messages for `"111111"`: more than the 50-message cap
the spec attributes to the receive route. -/
def wideDB : DB :=
  { users := [sampleUser], msgs := (List.range 51).map wideMsg }

/-- Sample identity marked for deletion at time 0, for the sweep witness. -/
def sweepMarked : User :=
  { sampleUser with markedForDeletion := true, markedAt := some 0 }

/-- Sample store for the sweep witness: one marked-past-grace identity, one
inactive unmarked identity, one message touching the marked identity. -/
def sweepDB : DB :=
  { users := [sweepMarked, sampleUser2], msgs := [sampleMsg 1 10] }

/-- Sweep time for the witness: 20 minutes past epoch. -/
def sweepNow : Nat := 20 * 60 * 1000

/-! ### Helper lemmas about the store primitives -/

theorem updateFirst_length (p : α → Bool) (f : α → α) (l : List α) :
    (updateFirst p f l).length = l.length := by
  induction l with
  | nil => rfl
  | cons x xs ih => cases h : p x <;> simp [updateFirst, h, ih]

theorem zip_self_all (g : α → α → Bool) (l : List α) (hid : ∀ x, g x x = true) :
    ((l.zip l).all (fun q => g q.1 q.2)) = true := by
  induction l with
  | nil => rfl
  | cons x xs ih => simp [hid x, ih]

theorem updateFirst_zip_all (p : α → Bool) (f : α → α) (g : α → α → Bool)
    (l : List α) (hid : ∀ x, g x x = true) (hf : ∀ x, g x (f x) = true) :
    ((l.zip (updateFirst p f l)).all (fun q => g q.1 q.2)) = true := by
  induction l with
  | nil => rfl
  | cons x xs ih =>
    cases h : p x
    · simpa [updateFirst, h, hid x] using ih
    · simpa [updateFirst, h, hf x] using zip_self_all g xs hid

theorem removeFirst_sublist (p : α → Bool) (l : List α) :
    (removeFirst p l).Sublist l := by
  induction l with
  | nil => simp [removeFirst]
  | cons x xs ih =>
    cases h : p x
    · simp only [removeFirst, h, Bool.false_eq_true, if_false]
      exact ih.cons₂ x
    · simp only [removeFirst, h, if_true]
      exact List.sublist_cons_self x xs

theorem mem_removeFirst_of_ne (p : α → Bool) (l : List α) (x : α)
    (hx : x ∈ l) (hpx : p x = false) : x ∈ removeFirst p l := by
  induction l with
  | nil => cases hx
  | cons y ys ih =>
    cases h : p y
    · simp only [removeFirst, h, Bool.false_eq_true, if_false, List.mem_cons]
      cases List.mem_cons.mp hx with
      | inl he => exact Or.inl he
      | inr hm => exact Or.inr (ih hm)
    · simp only [removeFirst, h, if_true]
      cases List.mem_cons.mp hx with
      | inl he => rw [he] at hpx; rw [hpx] at h; cases h
      | inr hm => exact hm

/-! ### Claim C4: delete-identity is idempotent on an absent user -/

/-- C4: for every `userId` whose identity does not exist, the delete route
reports success (a `DeleteResult`, never an error) with `deletedMessages = 0`
and `wasDeleted = false`, and it leaves the store unchanged. -/
theorem deleteUser_absent_noop (db : DB) (uid : String) (immediate : Bool)
    (reason : String) (now : Nat)
    (h : db.users.find? (fun u => u.id == uid) = none) :
    deleteUser db uid immediate reason now =
      ({ userId := uid, deletedMessages := 0, wasDeleted := false,
         reason := reason }, db) := by
  unfold deleteUser
  rw [h]

/-- Witness for C4 at the empty store. -/
theorem deleteUser_absent_noop_witness :
    deleteUser emptyDB "123456" true "manual" 5 =
      ({ userId := "123456", deletedMessages := 0, wasDeleted := false,
         reason := "manual" }, emptyDB) :=
  deleteUser_absent_noop emptyDB "123456" true "manual" 5 rfl

/-! ### Claim C6: check-availability on malformed input -/

/-- C6 counterexample: on the malformed code `"12345"` the check-availability
route does not succeed with `available = false` — the `validateUserId`
middleware rejects it with the 400 `INVALID_ID_FORMAT` error. -/
theorem checkId_malformed_counterexample :
    checkIdRoute emptyDB "12345" = CheckIdResult.invalidFormat := by decide

/-- C6 amended: the helper `isIdAvailable` reports a format-invalid code as
unavailable, but the route itself rejects format-invalid codes with
`INVALID_ID_FORMAT`; for well-formed codes the route succeeds and reports
available exactly when no live identity holds the code. -/
theorem checkId_route_spec (db : DB) (id : String) :
    (isValidId id = false →
        checkIdRoute db id = .invalidFormat ∧ isIdAvailable db id = false) ∧
    (isValidId id = true →
        checkIdRoute db id = .ok (isIdAvailable db id) id ∧
        (isIdAvailable db id = true ↔ ∀ u ∈ db.users, u.id ≠ id)) := by
  constructor
  · intro h
    exact ⟨by simp [checkIdRoute, h], by simp [isIdAvailable, h]⟩
  · intro h
    refine ⟨by simp [checkIdRoute, h], ?_⟩
    rw [isIdAvailable]
    simp [h, Option.isNone_iff_eq_none, List.find?_eq_none]

/-- Witness for C6 at a well-formed code on the empty store. -/
theorem checkId_route_spec_witness :
    checkIdRoute emptyDB "999999" = CheckIdResult.ok true "999999" := by
  have h := ((checkId_route_spec emptyDB "999999").2 (by decide)).1
  rw [h]
  decide

/-! ### Claim C9: heartbeat frame effect -/

/-- C9: heartbeat on an absent user fails with `USER_NOT_FOUND`; on success it
leaves the messages untouched and changes each user either not at all or only
in its `lastActiveAt` field — in particular `markedForDeletion`, `markedAt`
and `deleteReason` are never changed, so a marked identity is never unmarked
by a heartbeat. -/
theorem heartbeat_frame (db : DB) (userId : String) (now : Nat) :
    (db.users.find? (fun u => u.id == userId) = none →
        heartbeat db userId now = .error .userNotFound) ∧
    (∀ du db2, heartbeat db userId now = .ok (du, db2) →
        db2.msgs = db.msgs ∧
        db2.users.length = db.users.length ∧
        ((db.users.zip db2.users).all (fun q =>
            q.2 == q.1 || q.2 == { q.1 with lastActive := now })) = true) := by
  constructor
  · intro h
    unfold heartbeat
    rw [h]
  · intro du db2 h
    unfold heartbeat at h
    cases hf : db.users.find? (fun u => u.id == userId) with
    | none => rw [hf] at h; cases h
    | some u =>
      rw [hf] at h
      simp only [Except.ok.injEq, Prod.mk.injEq] at h
      obtain ⟨-, hdb⟩ := h
      subst hdb
      refine ⟨rfl, updateFirst_length _ _ _, ?_⟩
      exact updateFirst_zip_all (fun v => v.id == userId)
        (fun v => { v with lastActive := now })
        (fun a b => b == a || b == { a with lastActive := now })
        db.users (fun x => by simp) (fun x => by simp)

/-- Witness for C9: not-found on the empty store, and the frame property on a
concrete successful heartbeat. -/
theorem heartbeat_frame_witness :
    heartbeat emptyDB "111111" 42 = .error .userNotFound ∧
    (([sampleUser].zip [{ sampleUser with lastActive := 42 }]).all (fun q =>
        q.2 == q.1 || q.2 == { q.1 with lastActive := 42 })) = true :=
  ⟨(heartbeat_frame emptyDB "111111" 42).1 rfl,
   (((heartbeat_frame { users := [sampleUser], msgs := [] } "111111" 42).2
      { sampleUser with lastActive := 42 }
      { users := [{ sampleUser with lastActive := 42 }], msgs := [] }
      (by decide)).2.2)⟩

/-! ### Claim C10: mark-read only touches the caller's own inbox -/

/-- C10: whenever mark-read succeeds, the message list keeps its length and
every message whose `recipientId` differs from the caller is left completely
unchanged, regardless of which message ids the caller names; the users
collection is untouched. -/
theorem zip_map_all (f : α → α) (g : α → α → Bool) (l : List α)
    (h : ∀ x, g x (f x) = true) :
    ((l.zip (l.map f)).all (fun q => g q.1 q.2)) = true := by
  induction l with
  | nil => rfl
  | cons x xs ih => simp [h x, ih]

theorem markRead_only_own_inbox (db : DB) (userId : String)
    (messageIds : Option (List Nat)) (n : Nat) (db2 : DB)
    (h : markMessagesRead db userId messageIds = .ok (n, db2)) :
    db2.msgs.length = db.msgs.length ∧
    ((db.msgs.zip db2.msgs).all (fun q =>
        q.1.recipientId == userId || q.2 == q.1)) = true ∧
    db2.users = db.users := by
  unfold markMessagesRead at h
  cases hf : db.users.find? (fun u => u.id == userId) with
  | none => rw [hf] at h; cases h
  | some u =>
    rw [hf] at h
    simp only [Except.ok.injEq, Prod.mk.injEq] at h
    obtain ⟨-, hdb⟩ := h
    subst hdb
    refine ⟨by simp, ?_, rfl⟩
    exact zip_map_all
      (fun m => if markReadQuery userId messageIds m then
        { m with isRead := true } else m)
      (fun a b => a.recipientId == userId || b == a)
      db.msgs
      (fun m => by
        cases hrec : (m.recipientId == userId)
        · have hq : markReadQuery userId messageIds m = false := by
            simp [markReadQuery, hrec]
          simp [hq]
        · simp [hrec])

/-- Witness for C10 on a concrete store: one message to the caller, one to a
third identity. -/
theorem markRead_only_own_inbox_witness :
    ((sampleDB.msgs.zip
        ((sampleDB.msgs.map (fun m =>
          if markReadQuery "111111" none m then { m with isRead := true }
          else m)))).all (fun q =>
        q.1.recipientId == "111111" || q.2 == q.1)) = true :=
  (markRead_only_own_inbox sampleDB "111111" none 2
    { sampleDB with msgs := sampleDB.msgs.map (fun m =>
        if markReadQuery "111111" none m then { m with isRead := true }
        else m) }
    (by decide)).2.1

/-! ### Claim C5: allocation uniqueness and attempt budget -/

theorem generateUniqueIdAux_some (gen : Nat → Nat) (db : DB) :
    ∀ fuel start c, generateUniqueIdAux gen db start fuel = some c →
      ∃ j, start ≤ j ∧ j < start + fuel ∧ c = toString (gen j) ∧
        db.users.find? (fun u => u.id == c) = none := by
  intro fuel
  induction fuel with
  | zero => intro start c h; cases h
  | succ n ih =>
    intro start c h
    unfold generateUniqueIdAux at h
    cases hf : db.users.find? (fun u => u.id == toString (gen start)) with
    | none =>
      rw [hf] at h
      simp only [Option.some.injEq] at h
      refine ⟨start, Nat.le_refl _, by omega, h.symm, ?_⟩
      rw [h] at hf
      exact hf
    | some _ =>
      rw [hf] at h
      obtain ⟨j, hj1, hj2, hj3, hj4⟩ := ih (start + 1) c h
      exact ⟨j, by omega, by omega, hj3, hj4⟩

theorem generateUniqueIdAux_none (gen : Nat → Nat) (db : DB) :
    ∀ fuel start, generateUniqueIdAux gen db start fuel = none →
      ∀ j, start ≤ j → j < start + fuel →
        (db.users.find? (fun u => u.id == toString (gen j))).isSome = true := by
  intro fuel
  induction fuel with
  | zero => intro start _ j h1 h2; omega
  | succ n ih =>
    intro start h j h1 h2
    unfold generateUniqueIdAux at h
    cases hf : db.users.find? (fun u => u.id == toString (gen start)) with
    | none => rw [hf] at h; cases h
    | some _ =>
      rw [hf] at h
      by_cases hj : j = start
      · rw [hj, hf]; rfl
      · exact ih (start + 1) h j (by omega) (by omega)

/-- C5: under a generator whose draws lie in `100000–999999` (as
`Math.floor(100000 + Math.random() * 900000)` guarantees), `generateUniqueId`
either returns, within the 10-attempt budget, a code in range that no live
identity held at call time, or every one of the 10 attempts collides with an
existing identity and the route maps the failure to the 503
`SERVICE_UNAVAILABLE` response. -/
theorem generateUniqueId_allocation (gen : Nat → Nat) (db : DB) (now : Nat)
    (hrange : ∀ i, 100000 ≤ gen i ∧ gen i ≤ 999999) :
    (∀ c, generateUniqueId gen db 10 = some c →
        (∃ i, i < 10 ∧ c = toString (gen i) ∧
          100000 ≤ gen i ∧ gen i ≤ 999999) ∧
        (db.users.all (fun u => !(u.id == c))) = true) ∧
    (generateUniqueId gen db 10 = none →
        (∀ i, i < 10 →
          (db.users.any (fun u => u.id == toString (gen i))) = true) ∧
        generateIdRoute gen db now = .error .serviceUnavailable) := by
  constructor
  · intro c h
    obtain ⟨j, -, hj2, hj3, hj4⟩ :=
      generateUniqueIdAux_some gen db 10 0 c h
    refine ⟨⟨j, by omega, hj3, (hrange j).1, (hrange j).2⟩, ?_⟩
    rw [List.all_eq_true]
    intro u hu
    have := List.find?_eq_none.mp hj4 u hu
    simpa using this
  · intro h
    constructor
    · intro i hi
      have hs := generateUniqueIdAux_none gen db 10 0 h i (Nat.zero_le _) (by omega)
      obtain ⟨u, hu⟩ := Option.isSome_iff_exists.mp hs
      rw [List.any_eq_true]
      have hp := List.find?_some hu
      exact ⟨u, List.mem_of_find?_eq_some hu, hp⟩
    · unfold generateIdRoute
      rw [show generateUniqueId gen db 10 = none from h]

/-- Witness for C5: a constant in-range generator against a store holding
`"999999"` allocates `"123456"`, which no existing identity holds. -/
theorem generateUniqueId_allocation_witness :
    (100000 ≤ 123456 ∧ 123456 ≤ 999999) ∧
    (({ users := [{ sampleUser with id := "999999" }], msgs := [] } : DB).users.all
      (fun u => !(u.id == "123456"))) = true :=
  ⟨⟨by decide, by decide⟩,
   ((generateUniqueId_allocation (fun _ => 123456)
      { users := [{ sampleUser with id := "999999" }], msgs := [] } 0
      (fun _ => ⟨(by decide : (100000 : Nat) ≤ 123456),
        (by decide : (123456 : Nat) ≤ 999999)⟩)).1 "123456" (by decide)).2⟩

/-! ### Claim C7: what send actually persists -/

theorem validateMessage_ok_eq_trim (content t : String)
    (h : validateMessage content = .ok t) : t = jsTrim content := by
  unfold validateMessage at h
  split at h
  · cases h
  · split at h
    · cases h
    · split at h
      · cases h
      · split at h
        · cases h
        · simp only [Except.ok.injEq] at h
          exact h.symm

/-- C7 counterexample: sending the content `"a  b"` (two internal spaces)
persists it verbatim, while the spec's normalization would collapse the run
to `"a b"`. -/
theorem send_not_collapsing_counterexample :
    (match sendMessage { users := [sampleUser, sampleUser2], msgs := [] }
        "222222" "111111" "a  b" "f" 1 0 with
     | .ok (_, db2) => db2.msgs.map (fun m => m.content)
     | .error _ => []) = ["a  b"] ∧
    specNormalize "a  b" = "a b" ∧ ("a  b" : String) ≠ "a b" :=
  ⟨rfl, rfl, by decide⟩

/-- C7 amended: every successful send appends exactly one message whose
persisted content is the input with outer whitespace trimmed — internal runs
of whitespace are preserved, not collapsed. -/
theorem send_persists_trimmed_content (db : DB)
    (sid rid content fp : String) (newMid now : Nat) (res : Nat) (db2 : DB)
    (h : sendMessage db sid rid content fp newMid now = .ok (res, db2)) :
    db2.msgs = db.msgs ++
      [{ mid := newMid, senderId := sid, recipientId := rid,
         content := jsTrim content, timestamp := now, isRead := false,
         senderFingerprint := some fp }] := by
  unfold sendMessage at h
  split at h
  · cases h
  · split at h
    · cases h
    · split at h
      · cases h
      · cases hv : validateMessage content with
        | error e => rw [hv] at h; cases h
        | ok t =>
          rw [hv] at h
          cases hs : db.users.find? (fun u => u.id == sid) with
          | none => rw [hs] at h; cases h
          | some _ =>
            rw [hs] at h
            cases hr : db.users.find? (fun u => u.id == rid) with
            | none => rw [hr] at h; cases h
            | some _ =>
              rw [hr] at h
              simp only [Except.ok.injEq, Prod.mk.injEq] at h
              obtain ⟨-, hdb⟩ := h
              subst hdb
              rw [validateMessage_ok_eq_trim content t hv]

/-- Witness for C7's amended claim on a concrete successful send. -/
theorem send_persists_trimmed_content_witness :
    ({ users := (updateFirst (fun u => u.id == "111111")
          (fun u => { u with lastActive := 9 })
          [sampleUser, sampleUser2]),
       msgs := [{ mid := 3, senderId := "222222", recipientId := "111111",
                  content := jsTrim " hi  you ", timestamp := 9,
                  isRead := false, senderFingerprint := some "f" }] } : DB).msgs =
    [] ++
      [{ mid := 3, senderId := "222222", recipientId := "111111",
         content := jsTrim " hi  you ", timestamp := 9, isRead := false,
         senderFingerprint := some "f" }] :=
  send_persists_trimmed_content
    { users := [sampleUser, sampleUser2], msgs := [] }
    "222222" "111111" " hi  you " "f" 3 9 3 _ (by decide)

/-! ### Helper lemmas about the receive route -/

theorem receiveResult_messages (db : DB) (r : String) (page limit : Nat)
    (uo : Bool) (now : Nat) :
    (receiveResult db r page limit uo now).messages =
      (receivePage db r page limit uo).map stripFingerprint := rfl

theorem receiveResult_totalMessages (db : DB) (r : String) (page limit : Nat)
    (uo : Bool) (now : Nat) :
    (receiveResult db r page limit uo now).totalMessages =
      (db.msgs.filter (msgQuery r uo)).length -
        (receivePage db r page limit uo).length := rfl

theorem receiveResult_totalPages (db : DB) (r : String) (page limit : Nat)
    (uo : Bool) (now : Nat) :
    (receiveResult db r page limit uo now).totalPages =
      ((receiveResult db r page limit uo now).totalMessages + limit - 1) /
        limit := rfl

theorem receiveDB_msgs (db : DB) (r : String) (page limit : Nat) (uo : Bool)
    (now : Nat) :
    (receiveDB db r page limit uo now).msgs =
      db.msgs.filter (fun m =>
        !(((receivePage db r page limit uo).map (fun x => x.mid)).contains
          m.mid)) := rfl

theorem receive_ok_inv (db : DB) (r : String) (page limit : Nat) (uo : Bool)
    (now : Nat) (res : ReceiveResult) (db2 : DB)
    (h : receive db r page limit uo now = .ok (res, db2)) :
    res = receiveResult db r page limit uo now ∧
    db2 = receiveDB db r page limit uo now := by
  unfold receive at h
  cases hf : db.users.find? (fun u => u.id == r) with
  | none => rw [hf] at h; cases h
  | some u =>
    rw [hf] at h
    simp only [Except.ok.injEq, Prod.mk.injEq] at h
    exact ⟨h.1.symm, h.2.symm⟩

theorem mem_receivePage (db : DB) (r : String) (page limit : Nat) (uo : Bool)
    (m : Msg) (hm : m ∈ receivePage db r page limit uo) :
    m ∈ db.msgs ∧ msgQuery r uo m = true := by
  unfold receivePage at hm
  have h1 : m ∈ sortNewestFirst (db.msgs.filter (msgQuery r uo)) :=
    List.mem_of_mem_drop (List.mem_of_mem_take hm)
  have h2 : m ∈ db.msgs.filter (msgQuery r uo) :=
    (List.perm_insertionSort newerFirst _).mem_iff.mp h1
  exact ⟨List.mem_of_mem_filter h2, List.of_mem_filter h2⟩

/-! ### Claim C1: consume-on-read, immediate re-read is disjoint -/

/-- C1: if `receive(r, page = 1, limit = L)` succeeds and is immediately
followed by another `receive(r, page = 1, limit = L)` on the resulting store
(no sends in between), no message id returned by the first call appears in
the second call's result: the first call permanently deleted everything it
returned. -/
theorem receive_consume_on_read (db : DB) (r : String) (L now1 now2 : Nat)
    (res1 res2 : ReceiveResult) (db1 db2 : DB)
    (h1 : receive db r 1 L false now1 = .ok (res1, db1))
    (h2 : receive db1 r 1 L false now2 = .ok (res2, db2)) :
    ((db1.msgs.all (fun m => res1.messages.all (fun m1 =>
        !(m1.mid == m.mid)))) = true) ∧
    ((res1.messages.all (fun m1 => res2.messages.all (fun m2 =>
        !(m1.mid == m2.mid)))) = true) := by
  obtain ⟨hres1, hdb1⟩ := receive_ok_inv db r 1 L false now1 res1 db1 h1
  obtain ⟨hres2, -⟩ := receive_ok_inv db1 r 1 L false now2 res2 db2 h2
  subst hres1
  subst hres2
  constructor
  · rw [List.all_eq_true]
    intro m hm
    rw [hdb1, receiveDB_msgs] at hm
    have hnotin := List.of_mem_filter hm
    rw [receiveResult_messages, List.all_eq_true]
    intro m1 hm1
    obtain ⟨p1, hp1mem, hp1⟩ := List.mem_map.mp hm1
    have hmid1 : m1.mid = p1.mid := by rw [← hp1]; rfl
    have hin1 : p1.mid ∈ (receivePage db r 1 L false).map (fun x => x.mid) :=
      List.mem_map_of_mem _ hp1mem
    simp only [Bool.not_eq_eq_eq_not, Bool.not_true, beq_eq_false_iff_ne]
    intro hcontra
    rw [hmid1] at hcontra
    rw [hcontra] at hin1
    have hc : ((receivePage db r 1 L false).map (fun x => x.mid)).contains
        m.mid = true := by simpa using hin1
    rw [hc] at hnotin
    cases hnotin
  · rw [receiveResult_messages, List.all_eq_true]
    intro m1 hm1
    rw [List.all_eq_true]
    intro m2 hm2
    obtain ⟨p1, hp1mem, hp1⟩ := List.mem_map.mp hm1
    rw [receiveResult_messages] at hm2
    obtain ⟨p2, hp2mem, hp2⟩ := List.mem_map.mp hm2
    have hp2db1 : p2 ∈ db1.msgs := (mem_receivePage db1 r 1 L false p2 hp2mem).1
    rw [hdb1, receiveDB_msgs] at hp2db1
    have hnotin := List.of_mem_filter hp2db1
    have hmid1 : m1.mid = p1.mid := by rw [← hp1]; rfl
    have hmid2 : m2.mid = p2.mid := by rw [← hp2]; rfl
    have hin1 : p1.mid ∈ (receivePage db r 1 L false).map (fun x => x.mid) :=
      List.mem_map_of_mem _ hp1mem
    simp only [Bool.not_eq_eq_eq_not, Bool.not_true, beq_eq_false_iff_ne]
    intro hcontra
    rw [hmid1, hmid2] at hcontra
    rw [hcontra] at hin1
    have hc : ((receivePage db r 1 L false).map (fun x => x.mid)).contains
        p2.mid = true := by simpa using hin1
    rw [hc] at hnotin
    cases hnotin

/-- Witness for C1 on a concrete store: two consecutive receives with
`page = 1, limit = 1` return disjoint message ids. -/
theorem receive_consume_on_read_witness :
    ((receiveResult sampleDB "111111" 1 1 false 99).messages.all (fun m1 =>
      (receiveResult (receiveDB sampleDB "111111" 1 1 false 99) "111111" 1 1
          false 99).messages.all (fun m2 => !(m1.mid == m2.mid)))) = true :=
  (receive_consume_on_read sampleDB "111111" 1 99 99 _ _ _ _ rfl rfl).2

/-! ### Claim C8: page selection, ordering, and the missing limit clamp -/

/-- C8 counterexample: the receive route does not clamp the caller-supplied
limit to the 50-message maximum of `parsePagination` — a single call with
`limit = 51` returns 51 messages. -/
theorem receive_no_limit_clamp_counterexample :
    (match receive wideDB "111111" 1 51 false 0 with
     | .ok (res, _) => res.messages.length
     | .error _ => 0) = 51 ∧ 50 < 51 := by
  constructor
  · rfl
  · decide

/-- C8 amended: every successful receive selects exactly the page obtained by
dropping `(page - 1) * limit` messages of the newest-first ordering of the
recipient's matching messages and taking `limit` of them (so at most `limit`
messages, sorted newest-first) — but the caller-supplied limit is used as
given, with no clamp to a maximum. -/
theorem receive_page_selection (db : DB) (r : String) (page L now : Nat)
    (uo : Bool) (res : ReceiveResult) (db2 : DB)
    (h : receive db r page L uo now = .ok (res, db2)) :
    res.messages = (((sortNewestFirst (db.msgs.filter (msgQuery r uo))).drop
        ((page - 1) * L)).take L).map stripFingerprint ∧
    res.messages.length ≤ L ∧
    List.Pairwise newerFirst res.messages := by
  obtain ⟨hres, -⟩ := receive_ok_inv db r page L uo now res db2 h
  subst hres
  refine ⟨rfl, ?_, ?_⟩
  · rw [receiveResult_messages, List.length_map]
    unfold receivePage
    exact List.length_take_le L _
  · rw [receiveResult_messages]
    have hsorted : List.Pairwise newerFirst
        (sortNewestFirst (db.msgs.filter (msgQuery r uo))) :=
      List.sorted_insertionSort newerFirst _
    have hpage : List.Pairwise newerFirst (receivePage db r page L uo) := by
      unfold receivePage
      exact hsorted.sublist
        ((List.take_sublist _ _).trans (List.drop_sublist _ _))
    exact hpage.map stripFingerprint (fun a b hab => hab)

/-- Witness for C8's amended claim on the wide store. -/
theorem receive_page_selection_witness :
    (receiveResult wideDB "111111" 1 51 false 0).messages.length ≤ 51 :=
  (receive_page_selection wideDB "111111" 1 51 0 false _ _ rfl).2.1

/-! ### Helper lemmas about the sweep -/

theorem removeFirst_id_clean (l : List User) (uid : String)
    (hnd : (l.map (fun u => u.id)).Nodup) :
    ((removeFirst (fun u => u.id == uid) l).all
      (fun v => !(v.id == uid))) = true := by
  induction l with
  | nil => rfl
  | cons x xs ih =>
    rw [List.map_cons, List.nodup_cons] at hnd
    obtain ⟨hx, hxs⟩ := hnd
    cases h : (x.id == uid)
    · simp only [removeFirst, h, Bool.false_eq_true, if_false, List.all_cons]
      rw [ih hxs]
      simp [h]
    · simp only [removeFirst, h, if_true]
      have hxeq : x.id = uid := by simpa using h
      rw [List.all_eq_true]
      intro v hv
      suffices hne : v.id ≠ uid by simpa using hne
      intro he
      apply hx
      rw [hxeq, ← he]
      exact List.mem_map_of_mem _ hv

theorem foldl_purge_users_clean (l : List User) (uid : String) :
    ∀ acc : DB, ((acc.users.all (fun v => !(v.id == uid))) = true) →
      (((l.foldl (fun a u => purgeUser a u.id) acc).users.all
        (fun v => !(v.id == uid)))) = true := by
  induction l with
  | nil => intro acc h; exact h
  | cons w ws ih =>
    intro acc h
    rw [List.foldl_cons]
    apply ih
    rw [List.all_eq_true] at h ⊢
    intro v hv
    have hv2 : v ∈ removeFirst (fun x => x.id == w.id) acc.users := hv
    exact h v ((removeFirst_sublist (fun x => x.id == w.id) acc.users).subset hv2)

theorem foldl_purge_msgs_clean (l : List User) (uid : String) :
    ∀ acc : DB,
      ((acc.msgs.all (fun m => !(m.senderId == uid || m.recipientId == uid))) =
        true) →
      ((l.foldl (fun a u => purgeUser a u.id) acc).msgs.all
        (fun m => !(m.senderId == uid || m.recipientId == uid))) = true := by
  induction l with
  | nil => intro acc h; exact h
  | cons w ws ih =>
    intro acc h
    rw [List.foldl_cons]
    apply ih
    rw [List.all_eq_true] at h ⊢
    intro m hm
    have hm2 : m ∈ acc.msgs.filter (fun x =>
        !(x.senderId == w.id || x.recipientId == w.id)) := hm
    exact h m ((List.filter_sublist acc.msgs).subset hm2)

theorem foldl_purge_users_absent (l : List User) (uid : String) :
    ∀ acc : DB, (acc.users.map (fun u => u.id)).Nodup →
      uid ∈ l.map (fun u => u.id) →
      ((l.foldl (fun a u => purgeUser a u.id) acc).users.all
        (fun v => !(v.id == uid))) = true := by
  induction l with
  | nil => intro acc _ hin; cases hin
  | cons w ws ih =>
    intro acc hnd hin
    rw [List.foldl_cons]
    rw [List.map_cons, List.mem_cons] at hin
    by_cases hw : uid = w.id
    · apply foldl_purge_users_clean
      subst hw
      exact removeFirst_id_clean acc.users w.id hnd
    · apply ih
      · exact hnd.sublist ((removeFirst_sublist _ _).map _)
      · cases hin with
        | inl h0 => exact absurd h0 hw
        | inr h0 => exact h0

theorem foldl_purge_msgs_absent (l : List User) (uid : String) :
    ∀ acc : DB, uid ∈ l.map (fun u => u.id) →
      ((l.foldl (fun a u => purgeUser a u.id) acc).msgs.all
        (fun m => !(m.senderId == uid || m.recipientId == uid))) = true := by
  induction l with
  | nil => intro acc hin; cases hin
  | cons w ws ih =>
    intro acc hin
    rw [List.foldl_cons]
    rw [List.map_cons, List.mem_cons] at hin
    by_cases hw : uid = w.id
    · apply foldl_purge_msgs_clean
      subst hw
      rw [List.all_eq_true]
      intro m hm
      have hm2 : m ∈ acc.msgs.filter (fun x =>
          !(x.senderId == w.id || x.recipientId == w.id)) := hm
      have h3 := List.of_mem_filter hm2
      exact h3
    · cases hin with
      | inl h0 => exact absurd h0 hw
      | inr h0 => exact ih _ h0

theorem foldl_purge_users_keep (l : List User) (u : User) :
    ∀ acc : DB, u ∈ acc.users → (∀ w ∈ l, (u.id == w.id) = false) →
      u ∈ (l.foldl (fun a w => purgeUser a w.id) acc).users := by
  induction l with
  | nil => intro acc hu _; exact hu
  | cons w ws ih =>
    intro acc hu hne
    rw [List.foldl_cons]
    apply ih
    · exact mem_removeFirst_of_ne (fun v => v.id == w.id) acc.users u hu
        (hne w (List.mem_cons_self w ws))
    · intro w2 hw2
      exact hne w2 (List.mem_cons_of_mem w hw2)

theorem all_id_map (l : List User) (f : User → User) (uid : String)
    (hid : ∀ u, (f u).id = u.id)
    (h : (l.all (fun v => !(v.id == uid))) = true) :
    ((l.map f).all (fun v => !(v.id == uid))) = true := by
  rw [List.all_eq_true] at h ⊢
  intro v hv
  obtain ⟨w, hw, hfw⟩ := List.mem_map.mp hv
  rw [← hfw, show (f w).id = w.id from hid w]
  exact h w hw

theorem markF_id (ids : List String) (now : Nat) (u : User) :
    (if ids.contains u.id then
      ({ u with markedForDeletion := true, markedAt := some now,
                deleteReason := some "inactivity" } : User)
     else u).id = u.id := by
  by_cases hc : ids.contains u.id = true
  · rw [if_pos hc]
  · rw [if_neg hc]

theorem markF_eq_of_contains (ids : List String) (now : Nat) (u : User)
    (hc : ids.contains u.id = true) :
    (if ids.contains u.id then
      ({ u with markedForDeletion := true, markedAt := some now,
                deleteReason := some "inactivity" } : User)
     else u) =
    { u with markedForDeletion := true, markedAt := some now,
             deleteReason := some "inactivity" } := by
  rw [if_pos hc]

theorem markPhase_msgs (db : DB) (now : Nat) :
    (markPhase db now).msgs = db.msgs := rfl

theorem markPhase_marks (db : DB) (now : Nat) (u : User)
    (hu : u ∈ db.users) (hin : isInactive now u = true) :
    ({ u with markedForDeletion := true, markedAt := some now,
              deleteReason := some "inactivity" } : User) ∈
      (markPhase db now).users := by
  have hc : (((db.users.filter (isInactive now)).map
      (fun x => x.id)).contains u.id) = true := by
    have hmem : u.id ∈ (db.users.filter (isInactive now)).map (fun x => x.id) :=
      List.mem_map_of_mem _ (List.mem_filter.mpr ⟨hu, hin⟩)
    simpa using hmem
  refine List.mem_map.mpr ⟨u, hu, ?_⟩
  exact markF_eq_of_contains
    ((db.users.filter (isInactive now)).map (fun x => x.id)) now u hc

/-! ### Claim C2: sweep order — purge past grace, then mark inactive -/

/-- C2: in one sweep pass, every identity already marked and past the
two-minute grace window is purged — afterwards no user and no message (as
sender or recipient) with its id remains — and every identity not already
marked whose `lastActive` is older than the fifteen-minute threshold is
marked (`markedForDeletion`, `markedAt = now`, `deleteReason = "inactivity"`)
but still present: an identity newly marked in a pass is never purged in that
same pass. -/
theorem sweep_purges_then_marks (db : DB) (now : Nat)
    (hnd : (db.users.map (fun u => u.id)).Nodup) :
    (∀ u ∈ db.users, pastGrace now u = true →
        ((cleanupInactiveUsers db now).users.all
            (fun v => !(v.id == u.id))) = true ∧
        ((cleanupInactiveUsers db now).msgs.all
            (fun m => !(m.senderId == u.id || m.recipientId == u.id))) =
          true) ∧
    (∀ u ∈ db.users, u.markedForDeletion = false →
        u.lastActive < now - inactivityMs →
        ({ u with markedForDeletion := true, markedAt := some now,
                  deleteReason := some "inactivity" } : User) ∈
          (cleanupInactiveUsers db now).users) := by
  constructor
  · intro u hu hg
    have hin : u.id ∈ (db.users.filter (pastGrace now)).map (fun x => x.id) :=
      List.mem_map_of_mem _ (List.mem_filter.mpr ⟨hu, hg⟩)
    constructor
    · unfold cleanupInactiveUsers
      rw [show (markPhase (purgePhase db now) now).users =
          (purgePhase db now).users.map (fun v =>
            if ((((purgePhase db now).users.filter (isInactive now)).map
                (fun x => x.id)).contains v.id) then
              { v with markedForDeletion := true, markedAt := some now,
                       deleteReason := some "inactivity" }
            else v) from rfl]
      apply all_id_map
      · intro w
        exact markF_id (((purgePhase db now).users.filter
          (isInactive now)).map (fun x => x.id)) now w
      · exact foldl_purge_users_absent (db.users.filter (pastGrace now))
          u.id db hnd hin
    · unfold cleanupInactiveUsers
      rw [markPhase_msgs]
      exact foldl_purge_msgs_absent (db.users.filter (pastGrace now))
        u.id db hin
  · intro u hu hm hl
    have hkeep : u ∈ (purgePhase db now).users := by
      apply foldl_purge_users_keep (db.users.filter (pastGrace now)) u db hu
      intro w hw
      have hwdb : w ∈ db.users := List.mem_of_mem_filter hw
      have hwg : pastGrace now w = true := List.of_mem_filter hw
      have hwm : w.markedForDeletion = true := by
        unfold pastGrace at hwg
        rw [Bool.and_eq_true] at hwg
        exact hwg.1
      rw [beq_eq_false_iff_ne]
      intro he
      have huw : u = w := List.inj_on_of_nodup_map hnd hu hwdb he
      rw [huw, hwm] at hm
      cases hm
    have hinact : isInactive now u = true := by
      unfold isInactive
      rw [hm]
      simp [hl]
    exact markPhase_marks (purgePhase db now) now u hkeep hinact

/-- Witness for C2 on a concrete store: the marked-past-grace identity
`"111111"` is gone after the sweep, and the inactive identity `"222222"` is
marked but still present in the same pass. -/
theorem sweep_purges_then_marks_witness :
    ((cleanupInactiveUsers sweepDB sweepNow).users.all
        (fun v => !(v.id == "111111"))) = true ∧
    ({ sampleUser2 with markedForDeletion := true,
                        markedAt := some sweepNow,
                        deleteReason := some "inactivity" } : User) ∈
      (cleanupInactiveUsers sweepDB sweepNow).users :=
  ⟨((sweep_purges_then_marks sweepDB sweepNow (by decide)).1 sweepMarked
      (by decide) (by decide)).1,
   (sweep_purges_then_marks sweepDB sweepNow (by decide)).2 sampleUser2
      (by decide) rfl (by decide)⟩

/-! ### Helper lemmas for the post-deletion counts (claim C3) -/

theorem countP_split (p : α → Bool) (l : List α) :
    l.countP p + l.countP (fun a => !p a) = l.length := by
  induction l with
  | nil => rfl
  | cons x xs ih =>
    rw [List.countP_cons, List.countP_cons]
    cases h : p x
    · simp [h]
      omega
    · simp [h]
      omega

theorem countP_middle (T1 P2 T2 : List Msg)
    (hnd : ((T1 ++ (P2 ++ T2)).map (fun m => m.mid)).Nodup) :
    (T1 ++ (P2 ++ T2)).countP (fun m =>
      (P2.map (fun x => x.mid)).contains m.mid) = P2.length := by
  rw [List.countP_append, List.countP_append]
  rw [List.map_append, List.map_append] at hnd
  obtain ⟨hnd1, hnd23, hdisj1⟩ := List.nodup_append.mp hnd
  obtain ⟨hnd2, hnd3, hdisj23⟩ := List.nodup_append.mp hnd23
  have hT1 : T1.countP (fun m =>
      (P2.map (fun x => x.mid)).contains m.mid) = 0 := by
    rw [List.countP_eq_zero]
    intro x hx hcx
    have hc : x.mid ∈ P2.map (fun y => y.mid) := by simpa using hcx
    exact hdisj1 (List.mem_map_of_mem _ hx) (List.mem_append_left _ hc)
  have hT2 : T2.countP (fun m =>
      (P2.map (fun x => x.mid)).contains m.mid) = 0 := by
    rw [List.countP_eq_zero]
    intro x hx hcx
    have hc : x.mid ∈ P2.map (fun y => y.mid) := by simpa using hcx
    exact hdisj23 hc (List.mem_map_of_mem _ hx)
  have hP2 : P2.countP (fun m =>
      (P2.map (fun x => x.mid)).contains m.mid) = P2.length := by
    rw [List.countP_eq_length]
    intro a ha
    have hm : a.mid ∈ P2.map (fun y => y.mid) := List.mem_map_of_mem _ ha
    simpa using hm
  rw [hT1, hT2, hP2]
  omega

theorem countP_take_take (T : List Msg) (s L : Nat)
    (hndT : (T.map (fun m => m.mid)).Nodup) :
    T.countP (fun m =>
      (((T.drop s).take L).map (fun x => x.mid)).contains m.mid) =
    ((T.drop s).take L).length := by
  have hdec : T = T.take s ++ ((T.drop s).take L ++ (T.drop s).drop L) := by
    rw [List.take_append_drop L (T.drop s), List.take_append_drop s T]
  have hl : T.countP (fun m =>
      (((T.drop s).take L).map (fun x => x.mid)).contains m.mid) =
      (T.take s ++ ((T.drop s).take L ++ (T.drop s).drop L)).countP (fun m =>
      (((T.drop s).take L).map (fun x => x.mid)).contains m.mid) := by
    rw [← hdec]
  rw [hl]
  apply countP_middle
  rw [← hdec]
  exact hndT

theorem receivePage_countP (db : DB) (r : String) (page L : Nat) (uo : Bool)
    (hnd : (db.msgs.map (fun m => m.mid)).Nodup) :
    (db.msgs.filter (msgQuery r uo)).countP (fun m =>
      ((receivePage db r page L uo).map (fun x => x.mid)).contains m.mid) =
    (receivePage db r page L uo).length := by
  have hperm : List.Perm (sortNewestFirst (db.msgs.filter (msgQuery r uo)))
      (db.msgs.filter (msgQuery r uo)) := List.perm_insertionSort _ _
  have hndT : ((sortNewestFirst (db.msgs.filter (msgQuery r uo))).map
      (fun m => m.mid)).Nodup := by
    have hndS : ((db.msgs.filter (msgQuery r uo)).map
        (fun m => m.mid)).Nodup :=
      hnd.sublist ((List.filter_sublist db.msgs).map _)
    exact ((hperm.map _).nodup_iff).mpr hndS
  have h := countP_take_take (sortNewestFirst (db.msgs.filter (msgQuery r uo)))
    ((page - 1) * L) L hndT
  rw [← hperm.countP_eq]
  exact h

theorem receive_remaining_count (db : DB) (r : String) (page L : Nat)
    (uo : Bool) (hnd : (db.msgs.map (fun m => m.mid)).Nodup) :
    ((db.msgs.filter (fun m =>
        !(((receivePage db r page L uo).map (fun x => x.mid)).contains
          m.mid))).filter (msgQuery r uo)).length =
    (db.msgs.filter (msgQuery r uo)).length -
      (receivePage db r page L uo).length := by
  rw [List.filter_filter]
  rw [← List.countP_eq_length_filter, ← List.countP_eq_length_filter]
  have hstep : db.msgs.countP (fun a => msgQuery r uo a &&
      !(((receivePage db r page L uo).map (fun x => x.mid)).contains a.mid)) =
      (db.msgs.filter (msgQuery r uo)).countP (fun a =>
        !(((receivePage db r page L uo).map (fun x => x.mid)).contains
          a.mid)) := by
    rw [List.countP_filter]
    apply List.countP_congr
    intro x _
    rw [Bool.and_comm]
  rw [hstep]
  have hsplit := countP_split (fun a =>
      (((receivePage db r page L uo).map (fun x => x.mid)).contains a.mid))
    (db.msgs.filter (msgQuery r uo))
  have hpage := receivePage_countP db r page L uo hnd
  have hA : (db.msgs.filter (msgQuery r uo)).length =
      db.msgs.countP (msgQuery r uo) :=
    (List.countP_eq_length_filter _ _).symm
  omega

/-! ### Claim C3: counts reflect post-deletion state -/

/-- C3: on every successful receive (message ids in the store being unique,
as the store guarantees for `_id`), `totalMessages` equals the number of
matching messages remaining after this call's deletions, `totalPages` is the
ceiling of that remaining count over the limit, and `unreadCount` is present
exactly when not filtering to unread and counts the unread messages left
after this page's deletions. -/
theorem receive_counts_post_deletion (db : DB) (r : String)
    (page L now : Nat) (uo : Bool) (res : ReceiveResult) (db2 : DB)
    (hnd : (db.msgs.map (fun m => m.mid)).Nodup)
    (h : receive db r page L uo now = .ok (res, db2)) :
    res.totalMessages = (db2.msgs.filter (msgQuery r uo)).length ∧
    res.totalPages = ((db2.msgs.filter (msgQuery r uo)).length + L - 1) / L ∧
    (uo = false → res.unreadCount =
        some ((db2.msgs.filter (fun m =>
          m.recipientId == r && !m.isRead)).length)) ∧
    (uo = true → res.unreadCount = none) := by
  obtain ⟨hres, hdb2⟩ := receive_ok_inv db r page L uo now res db2 h
  subst hres
  subst hdb2
  have hrem := receive_remaining_count db r page L uo hnd
  have h1 : (receiveResult db r page L uo now).totalMessages =
      ((receiveDB db r page L uo now).msgs.filter (msgQuery r uo)).length := by
    rw [receiveResult_totalMessages, receiveDB_msgs, hrem]
  refine ⟨h1, ?_, ?_, ?_⟩
  · rw [receiveResult_totalPages, h1]
  · intro huo
    subst huo
    rfl
  · intro huo
    subst huo
    rfl

/-- Witness for C3 on a concrete receive that consumes both stored
messages. -/
theorem receive_counts_post_deletion_witness :
    (receiveResult sampleDB "111111" 1 20 false 99).totalMessages =
      ((receiveDB sampleDB "111111" 1 20 false 99).msgs.filter
        (msgQuery "111111" false)).length :=
  (receive_counts_post_deletion sampleDB "111111" 1 20 99 false _ _
    (by decide) rfl).1
